import Mathlib

/-!
Verification of the wall-distance computation of `CMeshFEM_DG::ComputeWall_Distance`
(`src/Common/src/fem_wall_distance.cpp`), by a shallow embedding of the routine:
the mesh data consumed by the routine is a Lean structure, the routine itself a
pure function from that structure to the produced distance buffers and to the
updated structure.  The ADT (`su2_adtElemClass`) lives outside this file's source;
its emptiness predicate and nearest-element query are modelled from the spec.
-/

open scoped BigOperators

namespace SU2

/-- Boundary-condition classification of a marker, as returned by
`config->GetMarker_All_KindBC(iMarker)`.  Only `HEAT_FLUX` and `ISOTHERMAL`
are inspected by the routine; every other kind is collapsed into `other`. -/
inductive KindBC where
  | HEAT_FLUX : KindBC
  | ISOTHERMAL : KindBC
  | other : Nat → KindBC
deriving DecidableEq

/-- A mesh point (`CPointFEM`): its coordinates, `coor[j]` for `j < nDim`. -/
structure CPointFEM where
  coor : Nat → ℝ

instance : Inhabited CPointFEM := ⟨⟨fun _ => 0⟩⟩

/-- A boundary surface element (`CSurfaceElementFEM`): index of its standard
element, number of grid DOFs, the global point indices of those DOFs, and the
wall-distance pointer set by the routine (modelled as an offset into the
marker's buffer, `none` while unset). -/
structure CSurfaceElementFEM where
  indStandardElement : Nat
  nDOFsGrid : Nat
  DOFsGridFace : List Nat
  wallDistance : Option Nat

instance : Inhabited CSurfaceElementFEM := ⟨⟨0, 0, [], none⟩⟩

/-- A boundary marker (`CBoundaryFEM`): periodic flag, its surface elements and
the per-marker boundary-face wall-distance buffer. -/
structure CBoundaryFEM where
  periodicBoundary : Bool
  surfElem : List CSurfaceElementFEM
  VecWallDistanceBoundaryFaces : List ℝ

instance : Inhabited CBoundaryFEM := ⟨⟨false, [], []⟩⟩

/-- Standard boundary face, grid variant (`CFEMStandardBoundaryFace`): the data
read through `GetVTK_Type`, `GetNSubFaces`, `GetNDOFsPerSubFace`,
`GetSubFaceConn`, `GetNIntegration` and `GetBasisFaceIntegration`. -/
structure CFEMStandardBoundaryFace where
  VTK_Type : Nat
  nSubFaces : Nat
  nDOFsPerSubFace : Nat
  subFaceConn : List Nat
  nIntegration : Nat
  basisFaceIntegration : List ℝ

instance : Inhabited CFEMStandardBoundaryFace := ⟨⟨0, 0, 0, [], 0, []⟩⟩

/-- An owned volume element (`CVolumeElementFEM`). -/
structure CVolumeElementFEM where
  indStandardElement : Nat
  nDOFsGrid : Nat
  nodeIDsGrid : List Nat
  wallDistance : Option Nat

instance : Inhabited CVolumeElementFEM := ⟨⟨0, 0, [], none⟩⟩

/-- Standard volume element, grid variant (`CFEMStandardElement`): the data read
through `GetNIntegration` and `GetBasisFunctionsIntegration`. -/
structure CFEMStandardElement where
  nIntegration : Nat
  basisFunctionsIntegration : List ℝ

instance : Inhabited CFEMStandardElement := ⟨⟨0, []⟩⟩

/-- An internal matching face (`CInternalFaceElementFEM`). -/
structure CInternalFaceFEM where
  indStandardElement : Nat
  DOFsGridFaceSide0 : List Nat
  wallDistance : Option Nat

instance : Inhabited CInternalFaceFEM := ⟨⟨0, [], none⟩⟩

/-- Standard matching face, grid variant (`CFEMStandardInternalFace`): the data
read through `GetNIntegration`, `GetNDOFsFaceSide0` and
`GetBasisFaceIntegrationSide0`. -/
structure CFEMStandardInternalFace where
  nIntegration : Nat
  nDOFsFaceSide0 : Nat
  basisFaceIntegrationSide0 : List ℝ

instance : Inhabited CFEMStandardInternalFace := ⟨⟨0, 0, []⟩⟩

/-- The mesh state visible to `ComputeWall_Distance`: the fields of
`CMeshFEM_DG` the routine reads and writes, plus the config accessor
`GetMarker_All_KindBC` as the function `kindBC`. -/
structure MeshFEM_DG where
  nDim : Nat
  meshPoints : List CPointFEM
  boundaries : List CBoundaryFEM
  standardBoundaryFacesGrid : List CFEMStandardBoundaryFace
  nVolElemOwned : Nat
  volElem : List CVolumeElementFEM
  standardElementsGrid : List CFEMStandardElement
  matchingFaces : List CInternalFaceFEM
  standardMatchingFacesGrid : List CFEMStandardInternalFace
  VecWallDistanceElements : List ℝ
  VecWallDistanceInternalMatchingFaces : List ℝ
  kindBC : Nat → KindBC

/-! ### Step 1: extraction of the linear wall sub-elements -/

/-- The marker filter of the extraction loop (lines 64-69): not periodic, and
the boundary condition is `HEAT_FLUX` or `ISOTHERMAL`. -/
def isWallMarker (s : MeshFEM_DG) (iMarker : Nat) : Bool :=
  !(s.boundaries.getD iMarker default).periodicBoundary &&
    (s.kindBC iMarker == KindBC.HEAT_FLUX || s.kindBC iMarker == KindBC.ISOTHERMAL)

/-- Surface element `i` of marker `iMarker`. -/
def surfElemAt (s : MeshFEM_DG) (iMarker i : Nat) : CSurfaceElementFEM :=
  ((s.boundaries.getD iMarker default).surfElem).getD i default

/-- The standard boundary face of a surface element
(`standardBoundaryFacesGrid[surfElem.indStandardElement]`). -/
def stdFaceOf (s : MeshFEM_DG) (se : CSurfaceElementFEM) : CFEMStandardBoundaryFace :=
  s.standardBoundaryFacesGrid.getD se.indStandardElement default

/-- All global point indices written with flag 1 in the first pass
(lines 75-77): the grid DOFs of every surface element of every wall marker. -/
def wallDOFList (s : MeshFEM_DG) : List Nat :=
  (List.range s.boundaries.length).flatMap fun iMarker =>
    if isWallMarker s iMarker then
      (List.range (s.boundaries.getD iMarker default).surfElem.length).flatMap fun i =>
        (List.range (surfElemAt s iMarker i).nDOFsGrid).map fun j =>
          (surfElemAt s iMarker i).DOFsGridFace.getD j 0
    else []

/-- The value of `meshToSurface[i]` after the first pass: whether mesh point
`i` lies on a local wall boundary. -/
def meshToSurfaceFlag (s : MeshFEM_DG) (i : Nat) : Bool :=
  (wallDOFList s).contains i

/-- The `markerIDs` vector built in lines 88-97: one entry per linear subface,
holding the owning marker. -/
def markerIDs (s : MeshFEM_DG) : List Nat :=
  (List.range s.boundaries.length).flatMap fun iMarker =>
    if isWallMarker s iMarker then
      (List.range (s.boundaries.getD iMarker default).surfElem.length).flatMap fun i =>
        List.replicate (stdFaceOf s (surfElemAt s iMarker i)).nSubFaces iMarker
    else []

/-- The `VTK_TypeElem` vector: one entry per linear subface, holding the VTK
type of its standard boundary face. -/
def VTK_TypeElem (s : MeshFEM_DG) : List Nat :=
  (List.range s.boundaries.length).flatMap fun iMarker =>
    if isWallMarker s iMarker then
      (List.range (s.boundaries.getD iMarker default).surfElem.length).flatMap fun i =>
        List.replicate (stdFaceOf s (surfElemAt s iMarker i)).nSubFaces
          (stdFaceOf s (surfElemAt s iMarker i)).VTK_Type
    else []

/-- The `elemIDs` vector: one entry per linear subface, holding the index of
its parent surface element within the marker. -/
def elemIDs (s : MeshFEM_DG) : List Nat :=
  (List.range s.boundaries.length).flatMap fun iMarker =>
    if isWallMarker s iMarker then
      (List.range (s.boundaries.getD iMarker default).surfElem.length).flatMap fun i =>
        List.replicate (stdFaceOf s (surfElemAt s iMarker i)).nSubFaces i
    else []

/-- The connectivity of subface `j` of surface element `i` of marker `iMarker`
in terms of global mesh-point indices (lines 95-96): the running counter `ii`
of the source equals `j * nDOFsPerSubFace + k`. -/
def subFaceGlobalConn (s : MeshFEM_DG) (iMarker i j : Nat) : List Nat :=
  (List.range (stdFaceOf s (surfElemAt s iMarker i)).nDOFsPerSubFace).map fun k =>
    (surfElemAt s iMarker i).DOFsGridFace.getD
      ((stdFaceOf s (surfElemAt s iMarker i)).subFaceConn.getD
        (j * (stdFaceOf s (surfElemAt s iMarker i)).nDOFsPerSubFace + k) 0) 0

/-- The `surfaceConn` vector before the remap of lines 120-121: subface
connectivities in global mesh-point numbering, concatenated in loop order. -/
def surfaceConnGlobal (s : MeshFEM_DG) : List Nat :=
  (List.range s.boundaries.length).flatMap fun iMarker =>
    if isWallMarker s iMarker then
      (List.range (s.boundaries.getD iMarker default).surfElem.length).flatMap fun i =>
        (List.range (stdFaceOf s (surfElemAt s iMarker i)).nSubFaces).flatMap fun j =>
          subFaceGlobalConn s iMarker i j
    else []

/-- The flagged mesh points in increasing index order: exactly the points that
receive a slot in `surfaceCoor` during the second pass (lines 109-116). -/
def wallVertexList (s : MeshFEM_DG) : List Nat :=
  (List.range s.meshPoints.length).filter fun i => meshToSurfaceFlag s i

/-- `nVertex_SolidWall` after the second pass. -/
def nVertex_SolidWall (s : MeshFEM_DG) : Nat :=
  (wallVertexList s).length

/-- The value of `meshToSurface[i]` after the second pass: for a flagged point
the running counter at the moment point `i` is visited, i.e. the number of
flagged points with smaller index; otherwise the initial 0. -/
def meshToSurface (s : MeshFEM_DG) (i : Nat) : Nat :=
  if meshToSurfaceFlag s i then
    ((List.range i).filter fun k => meshToSurfaceFlag s k).length
  else 0

/-- The `surfaceCoor` vector (lines 113-114): the `nDim` coordinates of every
flagged point, in increasing point order. -/
def surfaceCoor (s : MeshFEM_DG) : List ℝ :=
  (wallVertexList s).flatMap fun i =>
    (List.range s.nDim).map fun k => (s.meshPoints.getD i default).coor k

/-- The `surfaceConn` vector after the remap of lines 120-121. -/
def surfaceConn (s : MeshFEM_DG) : List Nat :=
  (surfaceConnGlobal s).map fun g => meshToSurface s g

/-! ### Step 2: the bounding-volume index (`su2_adtElemClass WallADT`)

The class itself is not part of this file's source; its observable behaviour
(emptiness predicate, nearest-element query) is modelled from the spec. -/

/-- The list of linear sub-elements the ADT is built over, each given by its
connectivity in local (`surfaceCoor`) numbering; one entry per subface, in the
same order as `markerIDs`. -/
def subElemConnList (s : MeshFEM_DG) : List (List Nat) :=
  (List.range s.boundaries.length).flatMap fun iMarker =>
    if isWallMarker s iMarker then
      (List.range (s.boundaries.getD iMarker default).surfElem.length).flatMap fun i =>
        (List.range (stdFaceOf s (surfElemAt s iMarker i)).nSubFaces).map fun j =>
          (subFaceGlobalConn s iMarker i j).map fun g => meshToSurface s g
    else []

/-- Modelled from the spec (§4.2): `WallADT.IsEmpty()` — the index is
explicitly empty exactly when it was built over zero sub-elements, i.e. when
the extraction lists are empty. -/
def WallADT_IsEmpty (s : MeshFEM_DG) : Bool :=
  (markerIDs s).isEmpty

/-- A query or vertex coordinate function viewed as a point of
`nDim`-dimensional Euclidean space. -/
noncomputable def toPoint (n : Nat) (p : Nat → ℝ) : EuclideanSpace ℝ (Fin n) :=
  (WithLp.equiv 2 (Fin n → ℝ)).symm fun j => p j.1

/-- Coordinates of local wall vertex `v`, read from `surfaceCoor`: the block of
vertex `v` starts at entry `v * nDim`. -/
def surfaceVertexCoor (s : MeshFEM_DG) (v : Nat) : Nat → ℝ := fun j =>
  (surfaceCoor s).getD (v * s.nDim + j) 0

/-- Modelled from the spec (§4.3): the region of space occupied by a linear
sub-element with connectivity `conn` — the convex hull of its vertices
(a segment for 2 vertices, a triangle for 3; the bilinear-quad case is
approximated by the hull, the approximation the spec's §9 leaves open). -/
noncomputable def subElemRegion (s : MeshFEM_DG) (conn : List Nat) :
    Set (EuclideanSpace ℝ (Fin s.nDim)) :=
  convexHull ℝ {q | ∃ v ∈ conn, q = toPoint s.nDim (surfaceVertexCoor s v)}

/-- Modelled from the spec (§4.3): `WallADT.DetermineNearestElement` returns
the exact minimum over all indexed sub-elements of the point-to-element
distance (the result is unspecified/never used when the index is empty). -/
noncomputable def DetermineNearestElement (s : MeshFEM_DG) (p : Nat → ℝ) : ℝ :=
  sInf {d | ∃ conn ∈ subElemConnList s, d = Metric.infDist (toPoint s.nDim p) (subElemRegion s conn)}

/-! ### Step 3: volume elements -/

/-- The standard element of owned volume element `l`
(`standardElementsGrid[volElem[l].indStandardElement]`). -/
def volStd (s : MeshFEM_DG) (l : Nat) : CFEMStandardElement :=
  s.standardElementsGrid.getD (s.volElem.getD l default).indStandardElement default

/-- Coordinate `j` of integration point `i` of volume element `l`
(lines 190-198): the accumulation loop `coor[j] += lag[jj+k] * ...` with
`jj = i * nDOFs`. -/
def volIntCoor (s : MeshFEM_DG) (l i : Nat) : Nat → ℝ := fun j =>
  (List.range (s.volElem.getD l default).nDOFsGrid).foldl
    (fun acc k => acc +
      (volStd s l).basisFunctionsIntegration.getD (i * (s.volElem.getD l default).nDOFsGrid + k) 0 *
      (s.meshPoints.getD ((s.volElem.getD l default).nodeIDsGrid.getD k 0) default).coor j) 0

/-- The wall distances written for volume element `l` (lines 173-209): all
zeros when the tree is empty, otherwise one query per integration point. -/
noncomputable def volElemWallDistances (s : MeshFEM_DG) (l : Nat) : List ℝ :=
  if WallADT_IsEmpty s then List.replicate (volStd s l).nIntegration 0
  else (List.range (volStd s l).nIntegration).map fun i =>
    DetermineNearestElement s (volIntCoor s l i)

/-- The `VecWallDistanceElements` buffer after step 3: sized by the total
integration-point count (line 157), each element's slice written in turn. -/
noncomputable def newVecWallDistanceElements (s : MeshFEM_DG) : List ℝ :=
  (List.range s.nVolElemOwned).flatMap fun l => volElemWallDistances s l

/-- The coordinates actually passed to `DetermineNearestElement` during
step 3 (none when the tree is empty). -/
def volQueryPoints (s : MeshFEM_DG) : List (Nat → ℝ) :=
  (List.range s.nVolElemOwned).flatMap fun l =>
    if WallADT_IsEmpty s then []
    else (List.range (volStd s l).nIntegration).map fun i => volIntCoor s l i

/-- Base offset of volume element `l` in `VecWallDistanceElements`: the value
of the running counter `nIntPoints` when `volElem[l].wallDistance` is set
(line 170). -/
def volOffset (s : MeshFEM_DG) (l : Nat) : Nat :=
  ∑ k ∈ Finset.range l, (volStd s k).nIntegration

/-! ### Step 4: internal matching faces -/

/-- The standard matching face of face `l`. -/
def mfStd (s : MeshFEM_DG) (l : Nat) : CFEMStandardInternalFace :=
  s.standardMatchingFacesGrid.getD (s.matchingFaces.getD l default).indStandardElement default

/-- Coordinate `j` of integration point `i` of matching face `l`
(lines 260-268), with `nDOFs = GetNDOFsFaceSide0()` and the side-0 basis. -/
def mfIntCoor (s : MeshFEM_DG) (l i : Nat) : Nat → ℝ := fun j =>
  (List.range (mfStd s l).nDOFsFaceSide0).foldl
    (fun acc k => acc +
      (mfStd s l).basisFaceIntegrationSide0.getD (i * (mfStd s l).nDOFsFaceSide0 + k) 0 *
      (s.meshPoints.getD ((s.matchingFaces.getD l default).DOFsGridFaceSide0.getD k 0)
        default).coor j) 0

/-- The wall distances written for matching face `l` (lines 244-279). -/
noncomputable def mfWallDistances (s : MeshFEM_DG) (l : Nat) : List ℝ :=
  if WallADT_IsEmpty s then List.replicate (mfStd s l).nIntegration 0
  else (List.range (mfStd s l).nIntegration).map fun i =>
    DetermineNearestElement s (mfIntCoor s l i)

/-- The `VecWallDistanceInternalMatchingFaces` buffer after step 4. -/
noncomputable def newVecWallDistanceInternalMatchingFaces (s : MeshFEM_DG) : List ℝ :=
  (List.range s.matchingFaces.length).flatMap fun l => mfWallDistances s l

/-- The coordinates passed to `DetermineNearestElement` during step 4. -/
def mfQueryPoints (s : MeshFEM_DG) : List (Nat → ℝ) :=
  (List.range s.matchingFaces.length).flatMap fun l =>
    if WallADT_IsEmpty s then []
    else (List.range (mfStd s l).nIntegration).map fun i => mfIntCoor s l i

/-- Base offset of matching face `l` in
`VecWallDistanceInternalMatchingFaces` (line 241). -/
def mfOffset (s : MeshFEM_DG) (l : Nat) : Nat :=
  ∑ k ∈ Finset.range l, (mfStd s k).nIntegration

/-! ### Step 5: boundary faces -/

/-- The standard boundary face of face `l` of marker `iMarker`. -/
def bfStd (s : MeshFEM_DG) (iMarker l : Nat) : CFEMStandardBoundaryFace :=
  stdFaceOf s (surfElemAt s iMarker l)

/-- The viscous-wall test of lines 305-306. -/
def viscousWall (s : MeshFEM_DG) (iMarker : Nat) : Bool :=
  s.kindBC iMarker == KindBC.HEAT_FLUX || s.kindBC iMarker == KindBC.ISOTHERMAL

/-- Coordinate `j` of integration point `i` of boundary face `l` of marker
`iMarker` (lines 341-349), with `nDOFs = surfElem[l].nDOFsGrid` and the face
basis of the standard boundary face. -/
def bfIntCoor (s : MeshFEM_DG) (iMarker l i : Nat) : Nat → ℝ := fun j =>
  (List.range (surfElemAt s iMarker l).nDOFsGrid).foldl
    (fun acc k => acc +
      (bfStd s iMarker l).basisFaceIntegration.getD
        (i * (surfElemAt s iMarker l).nDOFsGrid + k) 0 *
      (s.meshPoints.getD ((surfElemAt s iMarker l).DOFsGridFace.getD k 0) default).coor j) 0

/-- The wall distances written for boundary face `l` of marker `iMarker`
(lines 323-360): zeros when the tree is empty or the marker is a viscous
wall, otherwise one query per integration point. -/
noncomputable def bfWallDistances (s : MeshFEM_DG) (iMarker l : Nat) : List ℝ :=
  if WallADT_IsEmpty s || viscousWall s iMarker then
    List.replicate (bfStd s iMarker l).nIntegration 0
  else (List.range (bfStd s iMarker l).nIntegration).map fun i =>
    DetermineNearestElement s (bfIntCoor s iMarker l i)

/-- The `VecWallDistanceBoundaryFaces` buffer of marker `iMarker` after
step 5 (computed only for non-periodic markers; the periodic case is handled
in `ComputeWall_Distance`). -/
noncomputable def newVecWallDistanceBoundaryFaces (s : MeshFEM_DG) (iMarker : Nat) : List ℝ :=
  (List.range (s.boundaries.getD iMarker default).surfElem.length).flatMap fun l =>
    bfWallDistances s iMarker l

/-- The coordinates passed to `DetermineNearestElement` during step 5 for
marker `iMarker`: none when the marker is periodic (skipped entirely), the
tree is empty, or the marker is a viscous wall. -/
def bfQueryPoints (s : MeshFEM_DG) (iMarker : Nat) : List (Nat → ℝ) :=
  if (s.boundaries.getD iMarker default).periodicBoundary then []
  else
    (List.range (s.boundaries.getD iMarker default).surfElem.length).flatMap fun l =>
      if WallADT_IsEmpty s || viscousWall s iMarker then []
      else (List.range (bfStd s iMarker l).nIntegration).map fun i => bfIntCoor s iMarker l i

/-- Base offset of boundary face `l` of marker `iMarker` in the marker's
buffer (line 320). -/
def bfOffset (s : MeshFEM_DG) (iMarker l : Nat) : Nat :=
  ∑ k ∈ Finset.range l, (bfStd s iMarker k).nIntegration

/-! ### The full routine as a state transformer -/

/-- `CMeshFEM_DG::ComputeWall_Distance(config)`: the state after the call.
Writes the three wall-distance buffers and the per-entity `wallDistance`
pointers (offsets); everything else is carried over unchanged.  Periodic
markers are skipped entirely in step 5 (line 291). -/
noncomputable def ComputeWall_Distance (s : MeshFEM_DG) : MeshFEM_DG :=
  { s with
    VecWallDistanceElements := newVecWallDistanceElements s
    volElem := (List.range s.volElem.length).map fun l =>
      if l < s.nVolElemOwned then
        { s.volElem.getD l default with wallDistance := some (volOffset s l) }
      else s.volElem.getD l default
    VecWallDistanceInternalMatchingFaces := newVecWallDistanceInternalMatchingFaces s
    matchingFaces := (List.range s.matchingFaces.length).map fun l =>
      { s.matchingFaces.getD l default with wallDistance := some (mfOffset s l) }
    boundaries := (List.range s.boundaries.length).map fun iMarker =>
      if (s.boundaries.getD iMarker default).periodicBoundary then
        s.boundaries.getD iMarker default
      else
        { s.boundaries.getD iMarker default with
          VecWallDistanceBoundaryFaces := newVecWallDistanceBoundaryFaces s iMarker
          surfElem := (List.range (s.boundaries.getD iMarker default).surfElem.length).map
            fun l => { surfElemAt s iMarker l with wallDistance := some (bfOffset s iMarker l) } } }

/-! ### Concrete demonstration meshes (used by the witness theorems) -/

/-- A 2-D point with coordinates `(x, y)`. -/
def pt2 (x y : ℝ) : CPointFEM :=
  ⟨fun j => if j = 0 then x else if j = 1 then y else 0⟩

/-- A small concrete mesh: marker 0 is a heat-flux wall (one line element on
points 0-1), marker 1 an ordinary boundary, marker 2 a periodic boundary whose
boundary condition would qualify as a wall; one owned volume element and one
internal matching face. -/
def demoWall : MeshFEM_DG where
  nDim := 2
  meshPoints := [pt2 0 0, pt2 1 0, pt2 0 1, pt2 1 1]
  boundaries :=
    [⟨false, [⟨0, 2, [0, 1], none⟩], []⟩,
     ⟨false, [⟨0, 2, [2, 3], none⟩], []⟩,
     ⟨true, [⟨0, 2, [2, 3], none⟩], []⟩]
  standardBoundaryFacesGrid := [⟨3, 1, 2, [0, 1], 1, [1, 0]⟩]
  nVolElemOwned := 1
  volElem := [⟨0, 2, [2, 3], none⟩]
  standardElementsGrid := [⟨1, [1, 0]⟩]
  matchingFaces := [⟨0, [0, 2], none⟩]
  standardMatchingFacesGrid := [⟨1, 2, [1, 0]⟩]
  VecWallDistanceElements := []
  VecWallDistanceInternalMatchingFaces := []
  kindBC := fun m =>
    if m = 0 then KindBC.HEAT_FLUX else if m = 2 then KindBC.HEAT_FLUX else KindBC.other 0

/-- The same mesh with no marker classified as a wall: the bounding-volume
index comes out empty. -/
def demoEmpty : MeshFEM_DG :=
  { demoWall with kindBC := fun _ => KindBC.other 0 }

/-! ### Generic list and prefix-sum lemmas -/

theorem length_flatMap_range {α : Type} (n : Nat) (f : Nat → List α) :
    ((List.range n).flatMap f).length = ∑ k ∈ Finset.range n, (f k).length := by
  induction n with
  | zero => simp
  | succ m ih => simp [List.range_succ, Finset.sum_range_succ, ih]

theorem mem_flatMap_range {α : Type} {n : Nat} {f : Nat → List α} {x : α} :
    x ∈ (List.range n).flatMap f ↔ ∃ k, k < n ∧ x ∈ f k := by
  simp [List.mem_flatMap]

theorem count_flatMap_range (n : Nat) (f : Nat → List Nat) (a : Nat) :
    ((List.range n).flatMap f).count a = ∑ k ∈ Finset.range n, (f k).count a := by
  induction n with
  | zero => simp
  | succ m ih => simp [List.range_succ, Finset.sum_range_succ, ih, List.count_append]

/-! ### Claim C3 -/

/-- C3: the extractor emits linear sub-elements from a boundary marker if and
only if the marker is not periodic and its boundary condition is `HEAT_FLUX`
or `ISOTHERMAL` (the conjunction `isWallMarker`): every emitted sub-element's
marker passes that filter, a qualifying marker contributes exactly the
subfaces of all its surface elements, and a periodic marker contributes
none. -/
theorem claim_C3 (s : MeshFEM_DG) :
    (∀ m ∈ markerIDs s, isWallMarker s m = true) ∧
    (∀ iMarker, iMarker < s.boundaries.length → isWallMarker s iMarker = true →
      (markerIDs s).count iMarker =
        ∑ i ∈ Finset.range (s.boundaries.getD iMarker default).surfElem.length,
          (stdFaceOf s (surfElemAt s iMarker i)).nSubFaces) ∧
    (∀ iMarker, (s.boundaries.getD iMarker default).periodicBoundary = true →
      iMarker ∉ markerIDs s) := by
  have hmem : ∀ m ∈ markerIDs s, isWallMarker s m = true := by
    intro m hm
    rw [markerIDs] at hm
    rcases mem_flatMap_range.mp hm with ⟨k, _, hmk⟩
    by_cases hw : isWallMarker s k
    · rw [if_pos hw] at hmk
      rcases mem_flatMap_range.mp hmk with ⟨i, _, hmi⟩
      rcases List.eq_of_mem_replicate hmi with rfl
      exact hw
    · rw [if_neg hw] at hmk
      simp at hmk
  refine ⟨hmem, ?_, ?_⟩
  · intro iM hlt hw
    rw [markerIDs, count_flatMap_range]
    rw [Finset.sum_eq_single_of_mem iM (Finset.mem_range.mpr hlt)]
    · rw [if_pos hw, count_flatMap_range]
      refine Finset.sum_congr rfl ?_
      intro i _
      simp [List.count_replicate]
    · intro a _ hne
      by_cases hwa : isWallMarker s a
      · rw [if_pos hwa, count_flatMap_range]
        refine Finset.sum_eq_zero ?_
        intro i _
        have hba : (iM == a) = false := by
          exact beq_false_of_ne (Ne.symm hne)
        simp [List.count_replicate, hba]
        exact fun h => absurd h hne
      · rw [if_neg hwa]
        simp
  · intro iM hper hmem2
    have hw := hmem iM hmem2
    rw [isWallMarker, hper] at hw
    simp at hw

/-- Witness for C3 on the concrete mesh: marker 0 qualifies and contributes
its one subface, marker 2 is periodic (with wall classification) and
contributes nothing. -/
theorem claim_C3_witness :
    isWallMarker demoWall 0 = true ∧
    (markerIDs demoWall).count 0 =
      ∑ i ∈ Finset.range (demoWall.boundaries.getD 0 default).surfElem.length,
        (stdFaceOf demoWall (surfElemAt demoWall 0 i)).nSubFaces ∧
    2 ∉ markerIDs demoWall :=
  ⟨(claim_C3 demoWall).1 0 (by decide),
   (claim_C3 demoWall).2.1 0 (by decide) (by decide),
   (claim_C3 demoWall).2.2 2 (by decide)⟩

/-! ### Claim C1 -/

theorem getD_map_range {α : Type} {n : Nat} (f : Nat → α) {i : Nat} (d : α) (h : i < n) :
    ((List.range n).map f).getD i d = f i := by
  rw [List.getD_eq_getElem?_getD]
  simp [List.getElem?_map, List.getElem?_range, h]

/-- C1: when the bounding-volume index is empty, every wall-distance value
written by `ComputeWall_Distance` — for volume elements, internal matching
faces, and the boundary faces of every (non-periodic) marker — is exactly 0,
and `DetermineNearestElement` is never invoked (all query-point lists are
empty). -/
theorem claim_C1 (s : MeshFEM_DG) (h : WallADT_IsEmpty s = true) :
    (∀ x ∈ (ComputeWall_Distance s).VecWallDistanceElements, x = 0) ∧
    (∀ x ∈ (ComputeWall_Distance s).VecWallDistanceInternalMatchingFaces, x = 0) ∧
    (∀ iMarker, iMarker < s.boundaries.length →
      (s.boundaries.getD iMarker default).periodicBoundary = false →
      ∀ x ∈ ((ComputeWall_Distance s).boundaries.getD iMarker
          default).VecWallDistanceBoundaryFaces, x = 0) ∧
    volQueryPoints s = [] ∧ mfQueryPoints s = [] ∧
    (∀ iMarker, bfQueryPoints s iMarker = []) := by
  refine ⟨?_, ?_, ?_, ?_, ?_, ?_⟩
  · intro x hx
    have hx' : x ∈ newVecWallDistanceElements s := hx
    rcases mem_flatMap_range.mp hx' with ⟨l, _, hxl⟩
    rw [volElemWallDistances, if_pos h] at hxl
    exact List.eq_of_mem_replicate hxl
  · intro x hx
    have hx' : x ∈ newVecWallDistanceInternalMatchingFaces s := hx
    rcases mem_flatMap_range.mp hx' with ⟨l, _, hxl⟩
    rw [mfWallDistances, if_pos h] at hxl
    exact List.eq_of_mem_replicate hxl
  · intro iM hlt hper x hx
    have hb : (ComputeWall_Distance s).boundaries.getD iM default =
        { s.boundaries.getD iM default with
          VecWallDistanceBoundaryFaces := newVecWallDistanceBoundaryFaces s iM
          surfElem := (List.range (s.boundaries.getD iM default).surfElem.length).map
            fun l => { surfElemAt s iM l with wallDistance := some (bfOffset s iM l) } } := by
      show ((List.range s.boundaries.length).map _).getD iM default = _
      rw [getD_map_range _ default hlt, hper]
      simp
    rw [hb] at hx
    simp only at hx
    rcases mem_flatMap_range.mp hx with ⟨l, _, hxl⟩
    rw [bfWallDistances, if_pos (by rw [h]; rfl)] at hxl
    exact List.eq_of_mem_replicate hxl
  · rw [volQueryPoints]
    refine List.flatMap_eq_nil_iff.mpr ?_
    intro l _
    rw [if_pos h]
  · rw [mfQueryPoints]
    refine List.flatMap_eq_nil_iff.mpr ?_
    intro l _
    rw [if_pos h]
  · intro iM
    rw [bfQueryPoints]
    by_cases hper : (s.boundaries.getD iM default).periodicBoundary
    · rw [if_pos hper]
    · rw [if_neg hper]
      refine List.flatMap_eq_nil_iff.mpr ?_
      intro l _
      rw [if_pos (by rw [h]; rfl)]

/-- Witness for C1 on the concrete mesh with no wall marker. -/
theorem claim_C1_witness :
    WallADT_IsEmpty demoEmpty = true ∧
    ((∀ x ∈ (ComputeWall_Distance demoEmpty).VecWallDistanceElements, x = 0) ∧
     (∀ x ∈ (ComputeWall_Distance demoEmpty).VecWallDistanceInternalMatchingFaces, x = 0) ∧
     (∀ iMarker, iMarker < demoEmpty.boundaries.length →
       (demoEmpty.boundaries.getD iMarker default).periodicBoundary = false →
       ∀ x ∈ ((ComputeWall_Distance demoEmpty).boundaries.getD iMarker
           default).VecWallDistanceBoundaryFaces, x = 0) ∧
     volQueryPoints demoEmpty = [] ∧ mfQueryPoints demoEmpty = [] ∧
     (∀ iMarker, bfQueryPoints demoEmpty iMarker = [])) :=
  ⟨by decide, claim_C1 demoEmpty (by decide)⟩

/-! ### Claims C2, C10, C9 -/

/-- The boundary record of marker `iM` after the call, for `iM` in range:
unchanged when periodic, otherwise the buffer and the per-face wall-distance
offsets are filled in. -/
theorem boundaries_after (s : MeshFEM_DG) {iM : Nat} (hlt : iM < s.boundaries.length) :
    (ComputeWall_Distance s).boundaries.getD iM default =
      (if (s.boundaries.getD iM default).periodicBoundary then s.boundaries.getD iM default
       else
        { s.boundaries.getD iM default with
          VecWallDistanceBoundaryFaces := newVecWallDistanceBoundaryFaces s iM
          surfElem := (List.range (s.boundaries.getD iM default).surfElem.length).map
            fun l => { surfElemAt s iM l with wallDistance := some (bfOffset s iM l) } }) := by
  show ((List.range s.boundaries.length).map _).getD iM default = _
  rw [getD_map_range _ default hlt]

/-- C2: for a marker classified `HEAT_FLUX` or `ISOTHERMAL`, every wall
distance stored in that marker's boundary-face buffer is exactly 0, and the
nearest-element query is bypassed for all its integration points (the marker
contributes no query points).  The buffer is assumed empty at entry, as it is
when the routine is first called. -/
theorem claim_C2 (s : MeshFEM_DG) (iMarker : Nat) (hlt : iMarker < s.boundaries.length)
    (hv : viscousWall s iMarker = true)
    (hinit : (s.boundaries.getD iMarker default).VecWallDistanceBoundaryFaces = []) :
    (∀ x ∈ ((ComputeWall_Distance s).boundaries.getD iMarker
        default).VecWallDistanceBoundaryFaces, x = 0) ∧
    bfQueryPoints s iMarker = [] := by
  constructor
  · intro x hx
    rw [boundaries_after s hlt] at hx
    by_cases hper : (s.boundaries.getD iMarker default).periodicBoundary
    · rw [if_pos hper] at hx
      rw [hinit] at hx
      simp at hx
    · rw [if_neg hper] at hx
      simp only at hx
      rcases mem_flatMap_range.mp hx with ⟨l, _, hxl⟩
      rw [bfWallDistances, if_pos (by rw [hv]; exact Bool.or_true _)] at hxl
      exact List.eq_of_mem_replicate hxl
  · rw [bfQueryPoints]
    by_cases hper : (s.boundaries.getD iMarker default).periodicBoundary
    · rw [if_pos hper]
    · rw [if_neg hper]
      refine List.flatMap_eq_nil_iff.mpr ?_
      intro l _
      rw [if_pos (by rw [hv]; exact Bool.or_true _)]

/-- Witness for C2: marker 0 of the concrete mesh is a heat-flux wall. -/
theorem claim_C2_witness :
    viscousWall demoWall 0 = true ∧
    (∀ x ∈ ((ComputeWall_Distance demoWall).boundaries.getD 0
        default).VecWallDistanceBoundaryFaces, x = 0) ∧
    bfQueryPoints demoWall 0 = [] :=
  ⟨by decide, claim_C2 demoWall 0 (by decide) (by decide) rfl⟩

/-- C10: a marker flagged periodic is skipped entirely by the boundary-face
pass — its whole boundary record (buffer and per-face wall-distance pointers
included) is unchanged by the call, and it contributes no query points. -/
theorem claim_C10 (s : MeshFEM_DG) (iMarker : Nat) (hlt : iMarker < s.boundaries.length)
    (hper : (s.boundaries.getD iMarker default).periodicBoundary = true) :
    (ComputeWall_Distance s).boundaries.getD iMarker default =
      s.boundaries.getD iMarker default ∧
    bfQueryPoints s iMarker = [] := by
  constructor
  · rw [boundaries_after s hlt, if_pos hper]
  · rw [bfQueryPoints, if_pos hper]

/-- Witness for C10: marker 2 of the concrete mesh is periodic. -/
theorem claim_C10_witness :
    (demoWall.boundaries.getD 2 default).periodicBoundary = true ∧
    (ComputeWall_Distance demoWall).boundaries.getD 2 default =
      demoWall.boundaries.getD 2 default ∧
    bfQueryPoints demoWall 2 = [] :=
  ⟨by decide, claim_C10 demoWall 2 (by decide) (by decide)⟩

/-- C9: the routine mutates no input mesh structure — mesh points, standard
element descriptors, the markers' periodic flags and their surface elements'
geometric data (DOF lists, DOF counts, standard-element indices) are all
unchanged; the only writes are the distance buffers and the `wallDistance`
pointers. -/
theorem claim_C9 (s : MeshFEM_DG) :
    (ComputeWall_Distance s).meshPoints = s.meshPoints ∧
    (ComputeWall_Distance s).standardBoundaryFacesGrid = s.standardBoundaryFacesGrid ∧
    (ComputeWall_Distance s).standardElementsGrid = s.standardElementsGrid ∧
    (ComputeWall_Distance s).standardMatchingFacesGrid = s.standardMatchingFacesGrid ∧
    (ComputeWall_Distance s).nDim = s.nDim ∧
    (ComputeWall_Distance s).kindBC = s.kindBC ∧
    (ComputeWall_Distance s).boundaries.length = s.boundaries.length ∧
    (∀ iMarker, iMarker < s.boundaries.length →
      ((ComputeWall_Distance s).boundaries.getD iMarker default).periodicBoundary =
        (s.boundaries.getD iMarker default).periodicBoundary ∧
      ((ComputeWall_Distance s).boundaries.getD iMarker default).surfElem.length =
        (s.boundaries.getD iMarker default).surfElem.length ∧
      (∀ l, l < (s.boundaries.getD iMarker default).surfElem.length →
        (((ComputeWall_Distance s).boundaries.getD iMarker
            default).surfElem.getD l default).DOFsGridFace =
          (surfElemAt s iMarker l).DOFsGridFace ∧
        (((ComputeWall_Distance s).boundaries.getD iMarker
            default).surfElem.getD l default).nDOFsGrid =
          (surfElemAt s iMarker l).nDOFsGrid ∧
        (((ComputeWall_Distance s).boundaries.getD iMarker
            default).surfElem.getD l default).indStandardElement =
          (surfElemAt s iMarker l).indStandardElement)) := by
  refine ⟨rfl, rfl, rfl, rfl, rfl, rfl, by simp [ComputeWall_Distance], ?_⟩
  intro iM hlt
  rw [boundaries_after s hlt]
  by_cases hper : (s.boundaries.getD iM default).periodicBoundary
  · rw [if_pos hper]
    refine ⟨rfl, rfl, ?_⟩
    intro l _
    exact ⟨rfl, rfl, rfl⟩
  · rw [if_neg hper]
    refine ⟨rfl, by simp, ?_⟩
    intro l hl
    rw [getD_map_range _ default hl]
    exact ⟨rfl, rfl, rfl⟩

/-- Witness for C9 on the concrete mesh, instantiating the per-marker and
per-face clauses at marker 0, face 0. -/
theorem claim_C9_witness :
    (ComputeWall_Distance demoWall).meshPoints = demoWall.meshPoints ∧
    (((ComputeWall_Distance demoWall).boundaries.getD 0
        default).surfElem.getD 0 default).DOFsGridFace =
      (surfElemAt demoWall 0 0).DOFsGridFace :=
  ⟨(claim_C9 demoWall).1, (((claim_C9 demoWall).2.2.2.2.2.2.2 0 (by decide)).2.2 0 (by decide)).1⟩

/-! ### Claim C4 -/

/-- The volume element `l` after the call, for `l` in range: the
`wallDistance` pointer is set for owned elements. -/
theorem volElem_after (s : MeshFEM_DG) {l : Nat} (hlen : l < s.volElem.length) :
    (ComputeWall_Distance s).volElem.getD l default =
      (if l < s.nVolElemOwned then
        { s.volElem.getD l default with wallDistance := some (volOffset s l) }
       else s.volElem.getD l default) := by
  show ((List.range s.volElem.length).map _).getD l default = _
  rw [getD_map_range _ default hlen]

/-- The matching face `l` after the call, for `l` in range. -/
theorem matchingFaces_after (s : MeshFEM_DG) {l : Nat} (hlen : l < s.matchingFaces.length) :
    (ComputeWall_Distance s).matchingFaces.getD l default =
      { s.matchingFaces.getD l default with wallDistance := some (mfOffset s l) } := by
  show ((List.range s.matchingFaces.length).map _).getD l default = _
  rw [getD_map_range _ default hlen]

theorem offsets_ordered (cnt : Nat → Nat) {l1 l2 : Nat} (h : l1 < l2) :
    (∑ k ∈ Finset.range l1, cnt k) + cnt l1 ≤ ∑ k ∈ Finset.range l2, cnt k := by
  rw [← Finset.sum_range_succ]
  exact Finset.sum_le_sum_of_subset (Finset.range_subset.mpr h)

theorem offsets_cover (cnt : Nat → Nat) {n idx : Nat} (h : idx < ∑ k ∈ Finset.range n, cnt k) :
    ∃ l, l < n ∧ (∑ k ∈ Finset.range l, cnt k) ≤ idx ∧
      idx < (∑ k ∈ Finset.range l, cnt k) + cnt l := by
  induction n with
  | zero => simp at h
  | succ m ih =>
    rw [Finset.sum_range_succ] at h
    by_cases hm : idx < ∑ k ∈ Finset.range m, cnt k
    · rcases ih hm with ⟨l, hl, h1, h2⟩
      exact ⟨l, Nat.lt_succ_of_lt hl, h1, h2⟩
    · push_neg at hm
      exact ⟨m, Nat.lt_succ_self m, hm, h⟩

theorem newVecWallDistanceElements_length (s : MeshFEM_DG) :
    (newVecWallDistanceElements s).length =
      ∑ l ∈ Finset.range s.nVolElemOwned, (volStd s l).nIntegration := by
  rw [newVecWallDistanceElements, length_flatMap_range]
  refine Finset.sum_congr rfl ?_
  intro l _
  rw [volElemWallDistances]
  by_cases h : WallADT_IsEmpty s
  · rw [if_pos h, List.length_replicate]
  · rw [if_neg h, List.length_map, List.length_range]

theorem newVecWallDistanceInternalMatchingFaces_length (s : MeshFEM_DG) :
    (newVecWallDistanceInternalMatchingFaces s).length =
      ∑ l ∈ Finset.range s.matchingFaces.length, (mfStd s l).nIntegration := by
  rw [newVecWallDistanceInternalMatchingFaces, length_flatMap_range]
  refine Finset.sum_congr rfl ?_
  intro l _
  rw [mfWallDistances]
  by_cases h : WallADT_IsEmpty s
  · rw [if_pos h, List.length_replicate]
  · rw [if_neg h, List.length_map, List.length_range]

theorem newVecWallDistanceBoundaryFaces_length (s : MeshFEM_DG) (iMarker : Nat) :
    (newVecWallDistanceBoundaryFaces s iMarker).length =
      ∑ l ∈ Finset.range (s.boundaries.getD iMarker default).surfElem.length,
        (bfStd s iMarker l).nIntegration := by
  rw [newVecWallDistanceBoundaryFaces, length_flatMap_range]
  refine Finset.sum_congr rfl ?_
  intro l _
  rw [bfWallDistances]
  by_cases h : WallADT_IsEmpty s || viscousWall s iMarker
  · rw [if_pos h, List.length_replicate]
  · rw [if_neg h, List.length_map, List.length_range]

/-- C4: for each consumer category the allocated buffer length equals the sum
of the per-entity integration-point counts, each entity's base offset is the
sum of the counts of the preceding entities (the `wallDistance` pointer is set
to exactly that offset), the assigned ranges fit inside the buffer, are
pairwise disjoint (ordered), and exactly tile it (every buffer index falls in
some entity's range). -/
theorem claim_C4 (s : MeshFEM_DG) :
    ((ComputeWall_Distance s).VecWallDistanceElements.length =
        ∑ l ∈ Finset.range s.nVolElemOwned, (volStd s l).nIntegration) ∧
    (∀ l, l < s.nVolElemOwned → l < s.volElem.length →
      ((ComputeWall_Distance s).volElem.getD l default).wallDistance =
        some (volOffset s l)) ∧
    (∀ l, l < s.nVolElemOwned →
      volOffset s l + (volStd s l).nIntegration ≤
        (ComputeWall_Distance s).VecWallDistanceElements.length) ∧
    (∀ l1 l2, l1 < l2 → l2 < s.nVolElemOwned →
      volOffset s l1 + (volStd s l1).nIntegration ≤ volOffset s l2) ∧
    (∀ idx, idx < (ComputeWall_Distance s).VecWallDistanceElements.length →
      ∃ l, l < s.nVolElemOwned ∧ volOffset s l ≤ idx ∧
        idx < volOffset s l + (volStd s l).nIntegration) ∧
    ((ComputeWall_Distance s).VecWallDistanceInternalMatchingFaces.length =
        ∑ l ∈ Finset.range s.matchingFaces.length, (mfStd s l).nIntegration) ∧
    (∀ l, l < s.matchingFaces.length →
      ((ComputeWall_Distance s).matchingFaces.getD l default).wallDistance =
        some (mfOffset s l)) ∧
    (∀ l, l < s.matchingFaces.length →
      mfOffset s l + (mfStd s l).nIntegration ≤
        (ComputeWall_Distance s).VecWallDistanceInternalMatchingFaces.length) ∧
    (∀ l1 l2, l1 < l2 → l2 < s.matchingFaces.length →
      mfOffset s l1 + (mfStd s l1).nIntegration ≤ mfOffset s l2) ∧
    (∀ idx, idx < (ComputeWall_Distance s).VecWallDistanceInternalMatchingFaces.length →
      ∃ l, l < s.matchingFaces.length ∧ mfOffset s l ≤ idx ∧
        idx < mfOffset s l + (mfStd s l).nIntegration) ∧
    (∀ iMarker, iMarker < s.boundaries.length →
      (s.boundaries.getD iMarker default).periodicBoundary = false →
      (((ComputeWall_Distance s).boundaries.getD iMarker
          default).VecWallDistanceBoundaryFaces.length =
        ∑ l ∈ Finset.range (s.boundaries.getD iMarker default).surfElem.length,
          (bfStd s iMarker l).nIntegration) ∧
      (∀ l, l < (s.boundaries.getD iMarker default).surfElem.length →
        (((ComputeWall_Distance s).boundaries.getD iMarker
            default).surfElem.getD l default).wallDistance = some (bfOffset s iMarker l)) ∧
      (∀ l, l < (s.boundaries.getD iMarker default).surfElem.length →
        bfOffset s iMarker l + (bfStd s iMarker l).nIntegration ≤
          ((ComputeWall_Distance s).boundaries.getD iMarker
            default).VecWallDistanceBoundaryFaces.length) ∧
      (∀ l1 l2, l1 < l2 → l2 < (s.boundaries.getD iMarker default).surfElem.length →
        bfOffset s iMarker l1 + (bfStd s iMarker l1).nIntegration ≤ bfOffset s iMarker l2) ∧
      (∀ idx, idx < ((ComputeWall_Distance s).boundaries.getD iMarker
          default).VecWallDistanceBoundaryFaces.length →
        ∃ l, l < (s.boundaries.getD iMarker default).surfElem.length ∧
          bfOffset s iMarker l ≤ idx ∧
          idx < bfOffset s iMarker l + (bfStd s iMarker l).nIntegration)) := by
  have hVlen : (ComputeWall_Distance s).VecWallDistanceElements.length =
      ∑ l ∈ Finset.range s.nVolElemOwned, (volStd s l).nIntegration :=
    newVecWallDistanceElements_length s
  have hMlen : (ComputeWall_Distance s).VecWallDistanceInternalMatchingFaces.length =
      ∑ l ∈ Finset.range s.matchingFaces.length, (mfStd s l).nIntegration :=
    newVecWallDistanceInternalMatchingFaces_length s
  refine ⟨hVlen, ?_, ?_, ?_, ?_, hMlen, ?_, ?_, ?_, ?_, ?_⟩
  · intro l hown hlen
    rw [volElem_after s hlen, if_pos hown]
  · intro l hown
    rw [hVlen, volOffset]
    exact offsets_ordered _ hown
  · intro l1 l2 h12 _
    rw [volOffset, volOffset]
    exact offsets_ordered _ h12
  · intro idx hidx
    rw [hVlen] at hidx
    exact offsets_cover _ hidx
  · intro l hlen
    rw [matchingFaces_after s hlen]
  · intro l hlen
    rw [hMlen, mfOffset]
    exact offsets_ordered _ hlen
  · intro l1 l2 h12 _
    rw [mfOffset, mfOffset]
    exact offsets_ordered _ h12
  · intro idx hidx
    rw [hMlen] at hidx
    exact offsets_cover _ hidx
  · intro iM hlt hper
    have hb := boundaries_after s hlt
    rw [hper] at hb
    rw [if_neg (by simp)] at hb
    rw [hb]
    simp only
    have hBlen := newVecWallDistanceBoundaryFaces_length s iM
    refine ⟨hBlen, ?_, ?_, ?_, ?_⟩
    · intro l hl
      rw [getD_map_range _ default hl]
    · intro l hl
      rw [hBlen, bfOffset]
      exact offsets_ordered _ hl
    · intro l1 l2 h12 _
      rw [bfOffset, bfOffset]
      exact offsets_ordered _ h12
    · intro idx hidx
      rw [hBlen] at hidx
      exact offsets_cover _ hidx

/-- Witness for C4 on the concrete mesh: lengths, an offset-pointer
assignment, a fit bound and a covering index for each category. -/
theorem claim_C4_witness :
    ((ComputeWall_Distance demoWall).VecWallDistanceElements.length =
        ∑ l ∈ Finset.range demoWall.nVolElemOwned, (volStd demoWall l).nIntegration) ∧
    ((ComputeWall_Distance demoWall).volElem.getD 0 default).wallDistance =
      some (volOffset demoWall 0) ∧
    ((ComputeWall_Distance demoWall).matchingFaces.getD 0 default).wallDistance =
      some (mfOffset demoWall 0) ∧
    (((ComputeWall_Distance demoWall).boundaries.getD 0
        default).surfElem.getD 0 default).wallDistance = some (bfOffset demoWall 0 0) ∧
    (∃ l, l < demoWall.nVolElemOwned ∧ volOffset demoWall l ≤ 0 ∧
      0 < volOffset demoWall l + (volStd demoWall l).nIntegration) :=
  ⟨(claim_C4 demoWall).1,
   (claim_C4 demoWall).2.1 0 (by decide) (by decide),
   (claim_C4 demoWall).2.2.2.2.2.2.1 0 (by decide),
   ((claim_C4 demoWall).2.2.2.2.2.2.2.2.2.2 0 (by decide) (by decide)).2.1 0 (by decide),
   (claim_C4 demoWall).2.2.2.2.1 0
     (by rw [(claim_C4 demoWall).1]; decide)⟩

/-! ### Claim C7 -/

theorem interp_foldl (n : Nat) (f : Nat → ℝ) (c : ℝ) :
    (List.range n).foldl (fun acc k => acc + f k) c = c + ∑ k ∈ Finset.range n, f k := by
  induction n generalizing c with
  | zero => simp
  | succ m ih =>
    rw [List.range_succ, List.foldl_append, ih, Finset.sum_range_succ]
    simp [add_assoc]

/-- C7: for each consumer category, the query coordinate of integration point
`i` in dimension `j` — built in the source by the accumulation loop
`coor[j] += lag[i*nDOFs+k] * meshPoints[DOFs[k]].coor[j]` — equals the sum
over the entity's grid nodes `k` of the basis weight `lag[i*nDOFs+k]` times
node `k`'s coordinate in dimension `j`. -/
theorem claim_C7 (s : MeshFEM_DG) :
    (∀ l i j, volIntCoor s l i j =
      ∑ k ∈ Finset.range (s.volElem.getD l default).nDOFsGrid,
        (volStd s l).basisFunctionsIntegration.getD
          (i * (s.volElem.getD l default).nDOFsGrid + k) 0 *
        (s.meshPoints.getD ((s.volElem.getD l default).nodeIDsGrid.getD k 0)
          default).coor j) ∧
    (∀ l i j, mfIntCoor s l i j =
      ∑ k ∈ Finset.range (mfStd s l).nDOFsFaceSide0,
        (mfStd s l).basisFaceIntegrationSide0.getD (i * (mfStd s l).nDOFsFaceSide0 + k) 0 *
        (s.meshPoints.getD ((s.matchingFaces.getD l default).DOFsGridFaceSide0.getD k 0)
          default).coor j) ∧
    (∀ iMarker l i j, bfIntCoor s iMarker l i j =
      ∑ k ∈ Finset.range (surfElemAt s iMarker l).nDOFsGrid,
        (bfStd s iMarker l).basisFaceIntegration.getD
          (i * (surfElemAt s iMarker l).nDOFsGrid + k) 0 *
        (s.meshPoints.getD ((surfElemAt s iMarker l).DOFsGridFace.getD k 0)
          default).coor j) := by
  refine ⟨?_, ?_, ?_⟩
  · intro l i j
    exact (interp_foldl _ _ 0).trans (zero_add _)
  · intro l i j
    exact (interp_foldl _ _ 0).trans (zero_add _)
  · intro iMarker l i j
    exact (interp_foldl _ _ 0).trans (zero_add _)

/-! ### Claim C5 -/

theorem filter_range_length_mono (flag : Nat → Bool) {m n : Nat} (h : m ≤ n) :
    ((List.range m).filter flag).length ≤ ((List.range n).filter flag).length := by
  induction n with
  | zero =>
    have hm : m = 0 := Nat.le_zero.mp h
    subst hm
    exact Nat.le_refl _
  | succ k ih =>
    by_cases hm : m = k + 1
    · subst hm
      exact Nat.le_refl _
    · have hmk : m ≤ k := Nat.lt_succ_iff.mp (Nat.lt_of_le_of_ne h hm)
      refine Nat.le_trans (ih hmk) ?_
      rw [List.range_succ, List.filter_append]
      simp

theorem countBelow_lt (flag : Nat → Bool) {i n : Nat} (hf : flag i = true) (h : i < n) :
    ((List.range i).filter flag).length < ((List.range n).filter flag).length := by
  have h1 : ((List.range (i + 1)).filter flag).length =
      ((List.range i).filter flag).length + 1 := by
    rw [List.range_succ, List.filter_append]
    simp [hf]
  have h2 := filter_range_length_mono flag (Nat.succ_le_of_lt h)
  simp only [Nat.succ_eq_add_one] at h2
  omega

theorem flag_iff_mem (s : MeshFEM_DG) (i : Nat) :
    meshToSurfaceFlag s i = true ↔ i ∈ wallDOFList s := by
  rw [meshToSurfaceFlag]
  exact List.elem_iff

/-- Every entry of the pre-remap connectivity is a flagged mesh point, and (by
the DOF-range hypothesis) a valid mesh-point index. -/
theorem surfaceConnGlobal_flagged (s : MeshFEM_DG)
    (hconn : ∀ iMarker, iMarker < s.boundaries.length → isWallMarker s iMarker = true →
      ∀ i, i < (s.boundaries.getD iMarker default).surfElem.length →
      ∀ idx, idx < (stdFaceOf s (surfElemAt s iMarker i)).nSubFaces *
          (stdFaceOf s (surfElemAt s iMarker i)).nDOFsPerSubFace →
        (stdFaceOf s (surfElemAt s iMarker i)).subFaceConn.getD idx 0 <
          (surfElemAt s iMarker i).nDOFsGrid)
    (hdofs : ∀ iMarker, iMarker < s.boundaries.length → isWallMarker s iMarker = true →
      ∀ i, i < (s.boundaries.getD iMarker default).surfElem.length →
      ∀ j, j < (surfElemAt s iMarker i).nDOFsGrid →
        (surfElemAt s iMarker i).DOFsGridFace.getD j 0 < s.meshPoints.length) :
    ∀ g ∈ surfaceConnGlobal s, meshToSurfaceFlag s g = true ∧ g < s.meshPoints.length := by
  intro g hg
  rw [surfaceConnGlobal] at hg
  rcases mem_flatMap_range.mp hg with ⟨iM, hiM, h1⟩
  by_cases hw : isWallMarker s iM
  swap
  · rw [if_neg hw] at h1
    simp at h1
  rw [if_pos hw] at h1
  rcases mem_flatMap_range.mp h1 with ⟨i, hi, h2⟩
  rcases mem_flatMap_range.mp h2 with ⟨j, hj, h3⟩
  rw [subFaceGlobalConn] at h3
  rcases List.mem_map.mp h3 with ⟨k, hk, hgk⟩
  rw [List.mem_range] at hk
  set d := (stdFaceOf s (surfElemAt s iM i)).nDOFsPerSubFace with hd
  have hidx : j * d + k < (stdFaceOf s (surfElemAt s iM i)).nSubFaces * d := by
    have hjd : j * d + k < (j + 1) * d := by
      rw [Nat.add_mul, Nat.one_mul]
      omega
    have hsucc : (j + 1) * d ≤ (stdFaceOf s (surfElemAt s iM i)).nSubFaces * d :=
      Nat.mul_le_mul_right d (Nat.succ_le_of_lt hj)
    omega
  have hjd' := hconn iM hiM hw i hi (j * d + k) hidx
  have hmem : g ∈ wallDOFList s := by
    rw [wallDOFList]
    refine mem_flatMap_range.mpr ⟨iM, hiM, ?_⟩
    rw [if_pos hw]
    refine mem_flatMap_range.mpr ⟨i, hi, ?_⟩
    refine List.mem_map.mpr ⟨(stdFaceOf s (surfElemAt s iM i)).subFaceConn.getD (j * d + k) 0,
      List.mem_range.mpr hjd', ?_⟩
    rw [← hgk]
  refine ⟨(flag_iff_mem s g).mpr hmem, ?_⟩
  rw [← hgk]
  exact hdofs iM hiM hw i hi _ hjd'

/-- C5: after the remap pass, every entry of the sub-element connectivity is a
valid index into the local coordinate buffer, i.e. strictly below
`nVertex_SolidWall` — assuming the standard faces' sub-face connectivities
index within the elements' grid DOFs and the DOF lists index within the mesh
points, as the mesh collaborator guarantees. -/
theorem claim_C5 (s : MeshFEM_DG)
    (hconn : ∀ iMarker, iMarker < s.boundaries.length → isWallMarker s iMarker = true →
      ∀ i, i < (s.boundaries.getD iMarker default).surfElem.length →
      ∀ idx, idx < (stdFaceOf s (surfElemAt s iMarker i)).nSubFaces *
          (stdFaceOf s (surfElemAt s iMarker i)).nDOFsPerSubFace →
        (stdFaceOf s (surfElemAt s iMarker i)).subFaceConn.getD idx 0 <
          (surfElemAt s iMarker i).nDOFsGrid)
    (hdofs : ∀ iMarker, iMarker < s.boundaries.length → isWallMarker s iMarker = true →
      ∀ i, i < (s.boundaries.getD iMarker default).surfElem.length →
      ∀ j, j < (surfElemAt s iMarker i).nDOFsGrid →
        (surfElemAt s iMarker i).DOFsGridFace.getD j 0 < s.meshPoints.length) :
    ∀ x ∈ surfaceConn s, x < nVertex_SolidWall s := by
  intro x hx
  rw [surfaceConn] at hx
  rcases List.mem_map.mp hx with ⟨g, hg, rfl⟩
  rcases surfaceConnGlobal_flagged s hconn hdofs g hg with ⟨hflag, hlen⟩
  rw [meshToSurface, if_pos hflag]
  exact countBelow_lt _ hflag hlen

/-- Witness for C5 on the concrete mesh, at the concrete entry 1 of the
remapped connectivity. -/
theorem claim_C5_witness :
    1 ∈ surfaceConn demoWall ∧ 1 < nVertex_SolidWall demoWall :=
  ⟨by decide, claim_C5 demoWall (by decide) (by decide) 1 (by decide)⟩

/-! ### Claim C6 -/

theorem flatMap_blocks_length {α : Type} (L : List Nat) (d : Nat) (F : Nat → Nat → α) :
    (L.flatMap fun i => (List.range d).map (F i)).length = L.length * d := by
  induction L with
  | nil => simp
  | cons a L ih =>
    simp [List.flatMap_cons, ih, Nat.succ_mul, Nat.add_comm]

theorem flatMap_blocks_getD {α : Type} (L : List Nat) (d : Nat) (F : Nat → Nat → α) (dflt : α)
    {v j : Nat} (hv : v < L.length) (hj : j < d) :
    (L.flatMap fun i => (List.range d).map (F i)).getD (v * d + j) dflt = F (L.getD v 0) j := by
  induction L generalizing v with
  | nil => simp at hv
  | cons a L ih =>
    rw [List.flatMap_cons]
    cases v with
    | zero =>
      rw [Nat.zero_mul, Nat.zero_add]
      rw [List.getD_append _ _ _ _ (by simp [hj])]
      rw [getD_map_range _ dflt hj]
      rfl
    | succ w =>
      have hlen : ((List.range d).map (F a)).length = d := by simp
      have hidx : (w + 1) * d + j = ((List.range d).map (F a)).length + (w * d + j) := by
        rw [hlen, Nat.succ_mul]
        omega
      rw [hidx, List.getD_append_right _ _ _ _ (Nat.le_add_right _ _), Nat.add_sub_cancel_left]
      exact ih (Nat.lt_of_succ_lt_succ hv)

theorem vertex_at_countBelow (flag : Nat → Bool) {g n : Nat} (hf : flag g = true) (h : g < n) :
    ((List.range n).filter flag).getD (((List.range g).filter flag).length) 0 = g := by
  induction n with
  | zero => omega
  | succ m ih =>
    rw [List.range_succ, List.filter_append]
    by_cases hg : g = m
    · subst hg
      rw [List.getD_append_right _ _ _ _ (Nat.le_refl _), Nat.sub_self]
      simp [hf]
    · have hgm : g < m := Nat.lt_of_le_of_ne (Nat.lt_succ_iff.mp h) hg
      rw [List.getD_append _ _ _ _ (countBelow_lt flag hf hgm)]
      exact ih hgm

theorem countBelow_surj (flag : Nat → Bool) {n v : Nat}
    (hv : v < ((List.range n).filter flag).length) :
    ∃ i, i < n ∧ flag i = true ∧ ((List.range i).filter flag).length = v := by
  induction n with
  | zero => simp at hv
  | succ m ih =>
    rw [List.range_succ, List.filter_append, List.length_append] at hv
    by_cases hvm : v < ((List.range m).filter flag).length
    · rcases ih hvm with ⟨i, hi, hfi, hcb⟩
      exact ⟨i, Nat.lt_succ_of_lt hi, hfi, hcb⟩
    · push_neg at hvm
      by_cases hfm : flag m
      · have hvz : v = ((List.range m).filter flag).length := by
          simp [hfm] at hv
          omega
        exact ⟨m, Nat.lt_succ_self m, hfm, hvz.symm⟩
      · simp [hfm] at hv
        omega

/-- C6: the local coordinate buffer holds exactly one `nDim`-block per mesh
point participating in at least one wall sub-element: the buffer length is
`nVertex_SolidWall * nDim`; a mesh point appears in the sub-element
connectivity exactly when it is flagged (granted the sub-face connectivity of
each standard face covers all the element's grid DOFs and indexes in range);
the global-to-local map is injective on flagged points and onto
`0..nVertex_SolidWall-1`; and block `meshToSurface g` of the buffer holds
exactly the coordinates of mesh point `g`. -/
theorem claim_C6 (s : MeshFEM_DG)
    (hconn : ∀ iMarker, iMarker < s.boundaries.length → isWallMarker s iMarker = true →
      ∀ i, i < (s.boundaries.getD iMarker default).surfElem.length →
      ∀ idx, idx < (stdFaceOf s (surfElemAt s iMarker i)).nSubFaces *
          (stdFaceOf s (surfElemAt s iMarker i)).nDOFsPerSubFace →
        (stdFaceOf s (surfElemAt s iMarker i)).subFaceConn.getD idx 0 <
          (surfElemAt s iMarker i).nDOFsGrid)
    (hdofs : ∀ iMarker, iMarker < s.boundaries.length → isWallMarker s iMarker = true →
      ∀ i, i < (s.boundaries.getD iMarker default).surfElem.length →
      ∀ j, j < (surfElemAt s iMarker i).nDOFsGrid →
        (surfElemAt s iMarker i).DOFsGridFace.getD j 0 < s.meshPoints.length)
    (hcover : ∀ iMarker, iMarker < s.boundaries.length → isWallMarker s iMarker = true →
      ∀ i, i < (s.boundaries.getD iMarker default).surfElem.length →
      ∀ jd, jd < (surfElemAt s iMarker i).nDOFsGrid →
      ∃ j, j < (stdFaceOf s (surfElemAt s iMarker i)).nSubFaces ∧
      ∃ k, k < (stdFaceOf s (surfElemAt s iMarker i)).nDOFsPerSubFace ∧
        (stdFaceOf s (surfElemAt s iMarker i)).subFaceConn.getD
          (j * (stdFaceOf s (surfElemAt s iMarker i)).nDOFsPerSubFace + k) 0 = jd) :
    ((surfaceCoor s).length = nVertex_SolidWall s * s.nDim) ∧
    (∀ g, g ∈ surfaceConnGlobal s ↔
      (meshToSurfaceFlag s g = true ∧ g < s.meshPoints.length)) ∧
    (∀ g1 g2, meshToSurfaceFlag s g1 = true → meshToSurfaceFlag s g2 = true →
      meshToSurface s g1 = meshToSurface s g2 → g1 = g2) ∧
    (∀ v, v < nVertex_SolidWall s → ∃ g, g < s.meshPoints.length ∧
      meshToSurfaceFlag s g = true ∧ meshToSurface s g = v) ∧
    (∀ g, meshToSurfaceFlag s g = true → g < s.meshPoints.length →
      meshToSurface s g < nVertex_SolidWall s ∧
      ∀ j, j < s.nDim →
        (surfaceCoor s).getD (meshToSurface s g * s.nDim + j) 0 =
          (s.meshPoints.getD g default).coor j) := by
  refine ⟨?_, ?_, ?_, ?_, ?_⟩
  · rw [surfaceCoor]
    exact flatMap_blocks_length _ _ _
  · intro g
    constructor
    · intro hg
      exact surfaceConnGlobal_flagged s hconn hdofs g hg
    · rintro ⟨hflag, _⟩
      have hmem : g ∈ wallDOFList s := (flag_iff_mem s g).mp hflag
      rw [wallDOFList] at hmem
      rcases mem_flatMap_range.mp hmem with ⟨iM, hiM, h1⟩
      by_cases hw : isWallMarker s iM
      swap
      · rw [if_neg hw] at h1
        simp at h1
      rw [if_pos hw] at h1
      rcases mem_flatMap_range.mp h1 with ⟨i, hi, h2⟩
      rcases List.mem_map.mp h2 with ⟨jd, hjd, hgjd⟩
      rw [List.mem_range] at hjd
      rcases hcover iM hiM hw i hi jd hjd with ⟨j, hj, k, hk, hck⟩
      rw [surfaceConnGlobal]
      refine mem_flatMap_range.mpr ⟨iM, hiM, ?_⟩
      rw [if_pos hw]
      refine mem_flatMap_range.mpr ⟨i, hi, ?_⟩
      refine mem_flatMap_range.mpr ⟨j, hj, ?_⟩
      rw [subFaceGlobalConn]
      refine List.mem_map.mpr ⟨k, List.mem_range.mpr hk, ?_⟩
      rw [hck, hgjd]
  · intro g1 g2 hf1 hf2 heq
    rw [meshToSurface, if_pos hf1] at heq
    rw [meshToSurface, if_pos hf2] at heq
    rcases Nat.lt_trichotomy g1 g2 with h12 | h12 | h12
    · exfalso
      have hs : ((List.range (g1 + 1)).filter fun k => meshToSurfaceFlag s k).length =
          ((List.range g1).filter fun k => meshToSurfaceFlag s k).length + 1 := by
        rw [List.range_succ, List.filter_append]
        simp [hf1]
      have hm := filter_range_length_mono (fun k => meshToSurfaceFlag s k)
        (Nat.succ_le_of_lt h12)
      simp only [Nat.succ_eq_add_one] at hm
      omega
    · exact h12
    · exfalso
      have hs : ((List.range (g2 + 1)).filter fun k => meshToSurfaceFlag s k).length =
          ((List.range g2).filter fun k => meshToSurfaceFlag s k).length + 1 := by
        rw [List.range_succ, List.filter_append]
        simp [hf2]
      have hm := filter_range_length_mono (fun k => meshToSurfaceFlag s k)
        (Nat.succ_le_of_lt h12)
      simp only [Nat.succ_eq_add_one] at hm
      omega
  · intro v hv
    rcases countBelow_surj (fun k => meshToSurfaceFlag s k) hv with ⟨g, hg, hfg, hcb⟩
    refine ⟨g, hg, hfg, ?_⟩
    rw [meshToSurface, if_pos hfg]
    exact hcb
  · intro g hflag hlen
    have hcb : meshToSurface s g =
        ((List.range g).filter fun k => meshToSurfaceFlag s k).length := by
      rw [meshToSurface, if_pos hflag]
    have hvlt : meshToSurface s g < nVertex_SolidWall s := by
      rw [hcb]
      exact countBelow_lt _ hflag hlen
    refine ⟨hvlt, ?_⟩
    intro j hj
    rw [surfaceCoor]
    have hvlen : meshToSurface s g < (wallVertexList s).length := hvlt
    rw [flatMap_blocks_getD (wallVertexList s) s.nDim
      (fun i k => (s.meshPoints.getD i default).coor k) 0 hvlen hj]
    have hat : (wallVertexList s).getD (meshToSurface s g) 0 = g := by
      rw [hcb, wallVertexList]
      exact vertex_at_countBelow _ hflag hlen
    rw [hat]

/-- Witness for C6 on the concrete mesh: the buffer has 2 blocks of 2
coordinates, point 0 participates, local index 0 is attained, and block 0
holds the coordinates of point 0. -/
theorem claim_C6_witness :
    ((surfaceCoor demoWall).length = nVertex_SolidWall demoWall * demoWall.nDim) ∧
    (0 ∈ surfaceConnGlobal demoWall ↔
      (meshToSurfaceFlag demoWall 0 = true ∧ 0 < demoWall.meshPoints.length)) ∧
    (∃ g, g < demoWall.meshPoints.length ∧ meshToSurfaceFlag demoWall g = true ∧
      meshToSurface demoWall g = 0) ∧
    (surfaceCoor demoWall).getD (meshToSurface demoWall 0 * demoWall.nDim + 0) 0 =
      (demoWall.meshPoints.getD 0 default).coor 0 :=
  ⟨(claim_C6 demoWall (by decide) (by decide) (by decide)).1,
   (claim_C6 demoWall (by decide) (by decide) (by decide)).2.1 0,
   (claim_C6 demoWall (by decide) (by decide) (by decide)).2.2.2.1 0 (by decide),
   ((claim_C6 demoWall (by decide) (by decide) (by decide)).2.2.2.2 0 (by decide)
     (by decide)).2 0 (by decide)⟩

/-! ### Claim C8 -/

theorem subElemConnList_length_eq (s : MeshFEM_DG) :
    (subElemConnList s).length = (markerIDs s).length := by
  rw [subElemConnList, markerIDs, length_flatMap_range, length_flatMap_range]
  refine Finset.sum_congr rfl ?_
  intro iM _
  by_cases hw : isWallMarker s iM
  · rw [if_pos hw, if_pos hw, length_flatMap_range, length_flatMap_range]
    refine Finset.sum_congr rfl ?_
    intro i _
    simp
  · rw [if_neg hw, if_neg hw]
    rfl

theorem subElemConnList_ne_nil (s : MeshFEM_DG) (h : WallADT_IsEmpty s = false) :
    subElemConnList s ≠ [] := by
  intro hnil
  rw [WallADT_IsEmpty] at h
  have hlen := subElemConnList_length_eq s
  rw [hnil] at hlen
  have : markerIDs s = [] := List.length_eq_zero.mp hlen.symm
  rw [this] at h
  simp at h

/-- The set of candidate distances the modelled query minimises over. -/
noncomputable def candidateDists (s : MeshFEM_DG) (p : Nat → ℝ) : Set ℝ :=
  {d | ∃ conn ∈ subElemConnList s, d = Metric.infDist (toPoint s.nDim p) (subElemRegion s conn)}

theorem DetermineNearestElement_eq_sInf (s : MeshFEM_DG) (p : Nat → ℝ) :
    DetermineNearestElement s p = sInf (candidateDists s p) := rfl

theorem candidateDists_nonneg (s : MeshFEM_DG) (p : Nat → ℝ) :
    ∀ d ∈ candidateDists s p, 0 ≤ d := by
  rintro d ⟨conn, _, rfl⟩
  exact Metric.infDist_nonneg

theorem DetermineNearestElement_nonneg (s : MeshFEM_DG) (p : Nat → ℝ) :
    0 ≤ DetermineNearestElement s p := by
  rw [DetermineNearestElement_eq_sInf]
  exact Real.sInf_nonneg (candidateDists_nonneg s p)

/-- Componentwise inclusion in the box `[lo, hi]` bounds the Euclidean
distance of two points by the box diagonal. -/
theorem dist_le_box {n : Nat} (p q lo hi : Nat → ℝ)
    (hp : ∀ j, j < n → lo j ≤ p j ∧ p j ≤ hi j)
    (hq : ∀ j, j < n → lo j ≤ q j ∧ q j ≤ hi j) :
    dist (toPoint n p) (toPoint n q) ≤ dist (toPoint n lo) (toPoint n hi) := by
  rw [EuclideanSpace.dist_eq, EuclideanSpace.dist_eq]
  apply Real.sqrt_le_sqrt
  apply Finset.sum_le_sum
  intro j _
  have hpj := hp j.1 j.2
  have hqj := hq j.1 j.2
  have happ : ∀ f : Nat → ℝ, toPoint n f j = f j.1 := fun _ => rfl
  rw [happ, happ, happ, happ, Real.dist_eq, Real.dist_eq]
  have hlh : lo j.1 ≤ hi j.1 := le_trans hpj.1 hpj.2
  have habs : |lo j.1 - hi j.1| = hi j.1 - lo j.1 := by
    rw [abs_sub_comm]
    exact abs_of_nonneg (by linarith)
  have hle : |p j.1 - q j.1| ≤ |lo j.1 - hi j.1| := by
    rw [habs, abs_sub_le_iff]
    constructor <;> linarith [hpj.1, hpj.2, hqj.1, hqj.2]
  exact pow_le_pow_left₀ (abs_nonneg _) hle 2

/-- If the index is nonempty and wall vertices and query point all lie in the
box `[lo, hi]`, the query result is at most the box diagonal. -/
theorem DetermineNearestElement_le_diag (s : MeshFEM_DG) (p lo hi : Nat → ℝ)
    (hne : WallADT_IsEmpty s = false)
    (hvert : ∀ conn ∈ subElemConnList s, ∀ v ∈ conn, ∀ j, j < s.nDim →
      lo j ≤ surfaceVertexCoor s v j ∧ surfaceVertexCoor s v j ≤ hi j)
    (hp : ∀ j, j < s.nDim → lo j ≤ p j ∧ p j ≤ hi j) :
    DetermineNearestElement s p ≤ dist (toPoint s.nDim lo) (toPoint s.nDim hi) := by
  obtain ⟨c0, rest, hc⟩ : ∃ c0 rest, subElemConnList s = c0 :: rest := by
    rcases hl : subElemConnList s with _ | ⟨c0, rest⟩
    · exact absurd hl (subElemConnList_ne_nil s hne)
    · exact ⟨c0, rest, rfl⟩
  have hc0mem : c0 ∈ subElemConnList s := by
    rw [hc]
    exact List.mem_cons_self _ _
  have hmem : Metric.infDist (toPoint s.nDim p) (subElemRegion s c0) ∈ candidateDists s p :=
    ⟨c0, hc0mem, rfl⟩
  have hbdd : BddBelow (candidateDists s p) :=
    ⟨0, fun d hd => candidateDists_nonneg s p d hd⟩
  rw [DetermineNearestElement_eq_sInf]
  refine le_trans (csInf_le hbdd hmem) ?_
  cases c0 with
  | nil =>
    have hempty : subElemRegion s [] = ∅ := by
      rw [subElemRegion]
      have : {q | ∃ v ∈ ([] : List Nat), q = toPoint s.nDim (surfaceVertexCoor s v)} =
          (∅ : Set (EuclideanSpace ℝ (Fin s.nDim))) := by
        ext q
        simp
      rw [this, convexHull_empty]
    rw [hempty, Metric.infDist_empty]
    exact dist_nonneg
  | cons v vs =>
    have hvreg : toPoint s.nDim (surfaceVertexCoor s v) ∈ subElemRegion s (v :: vs) :=
      subset_convexHull ℝ _ ⟨v, List.mem_cons_self _ _, rfl⟩
    refine le_trans (Metric.infDist_le_dist_of_mem hvreg) ?_
    exact dist_le_box p (surfaceVertexCoor s v) lo hi hp
      (hvert (v :: vs) hc0mem v (List.mem_cons_self _ _))

/-- C8: every wall distance written into any of the three buffers is
non-negative and at most the diagonal of any bounding box `[lo, hi]` that
contains the wall vertices and the query points. -/
theorem claim_C8 (s : MeshFEM_DG) (lo hi : Nat → ℝ)
    (hvert : ∀ conn ∈ subElemConnList s, ∀ v ∈ conn, ∀ j, j < s.nDim →
      lo j ≤ surfaceVertexCoor s v j ∧ surfaceVertexCoor s v j ≤ hi j)
    (hvol : ∀ p ∈ volQueryPoints s, ∀ j, j < s.nDim → lo j ≤ p j ∧ p j ≤ hi j)
    (hmf : ∀ p ∈ mfQueryPoints s, ∀ j, j < s.nDim → lo j ≤ p j ∧ p j ≤ hi j)
    (hbf : ∀ iMarker, ∀ p ∈ bfQueryPoints s iMarker, ∀ j, j < s.nDim →
      lo j ≤ p j ∧ p j ≤ hi j) :
    (∀ d ∈ newVecWallDistanceElements s,
      0 ≤ d ∧ d ≤ dist (toPoint s.nDim lo) (toPoint s.nDim hi)) ∧
    (∀ d ∈ newVecWallDistanceInternalMatchingFaces s,
      0 ≤ d ∧ d ≤ dist (toPoint s.nDim lo) (toPoint s.nDim hi)) ∧
    (∀ iMarker, iMarker < s.boundaries.length →
      (s.boundaries.getD iMarker default).periodicBoundary = false →
      ∀ d ∈ ((ComputeWall_Distance s).boundaries.getD iMarker
          default).VecWallDistanceBoundaryFaces,
        0 ≤ d ∧ d ≤ dist (toPoint s.nDim lo) (toPoint s.nDim hi)) := by
  refine ⟨?_, ?_, ?_⟩
  · intro d hd
    rcases mem_flatMap_range.mp hd with ⟨l, hl, hdl⟩
    rw [volElemWallDistances] at hdl
    by_cases hemp : WallADT_IsEmpty s
    · rw [if_pos hemp] at hdl
      rw [List.eq_of_mem_replicate hdl]
      exact ⟨le_refl 0, dist_nonneg⟩
    · rw [if_neg hemp] at hdl
      rcases List.mem_map.mp hdl with ⟨i, hint, rfl⟩
      have hpmem : volIntCoor s l i ∈ volQueryPoints s := by
        refine mem_flatMap_range.mpr ⟨l, hl, ?_⟩
        rw [if_neg hemp]
        exact List.mem_map.mpr ⟨i, hint, rfl⟩
      have hempf : WallADT_IsEmpty s = false := by
        cases hE : WallADT_IsEmpty s
        · rfl
        · exact absurd hE hemp
      refine ⟨DetermineNearestElement_nonneg s _, ?_⟩
      exact DetermineNearestElement_le_diag s _ lo hi hempf hvert (hvol _ hpmem)
  · intro d hd
    rcases mem_flatMap_range.mp hd with ⟨l, hl, hdl⟩
    rw [mfWallDistances] at hdl
    by_cases hemp : WallADT_IsEmpty s
    · rw [if_pos hemp] at hdl
      rw [List.eq_of_mem_replicate hdl]
      exact ⟨le_refl 0, dist_nonneg⟩
    · rw [if_neg hemp] at hdl
      rcases List.mem_map.mp hdl with ⟨i, hint, rfl⟩
      have hpmem : mfIntCoor s l i ∈ mfQueryPoints s := by
        refine mem_flatMap_range.mpr ⟨l, hl, ?_⟩
        rw [if_neg hemp]
        exact List.mem_map.mpr ⟨i, hint, rfl⟩
      have hempf : WallADT_IsEmpty s = false := by
        cases hE : WallADT_IsEmpty s
        · rfl
        · exact absurd hE hemp
      refine ⟨DetermineNearestElement_nonneg s _, ?_⟩
      exact DetermineNearestElement_le_diag s _ lo hi hempf hvert (hmf _ hpmem)
  · intro iM hlt hper d hd
    have hb := boundaries_after s hlt
    rw [hper] at hb
    rw [if_neg (by simp)] at hb
    rw [hb] at hd
    simp only at hd
    rcases mem_flatMap_range.mp hd with ⟨l, hl, hdl⟩
    rw [bfWallDistances] at hdl
    by_cases hzero : WallADT_IsEmpty s || viscousWall s iM
    · rw [if_pos hzero] at hdl
      rw [List.eq_of_mem_replicate hdl]
      exact ⟨le_refl 0, dist_nonneg⟩
    · rw [if_neg hzero] at hdl
      rcases List.mem_map.mp hdl with ⟨i, hint, rfl⟩
      have hemp : WallADT_IsEmpty s = false := by
        cases hE : WallADT_IsEmpty s
        · rfl
        · rw [hE] at hzero
          exact absurd rfl hzero
      have hpmem : bfIntCoor s iM l i ∈ bfQueryPoints s iM := by
        rw [bfQueryPoints, if_neg (by rw [hper]; simp)]
        refine mem_flatMap_range.mpr ⟨l, hl, ?_⟩
        rw [if_neg hzero]
        exact List.mem_map.mpr ⟨i, hint, rfl⟩
      refine ⟨DetermineNearestElement_nonneg s _, ?_⟩
      exact DetermineNearestElement_le_diag s _ lo hi hemp hvert (hbf iM _ hpmem)

/-- The demonstration mesh with every point at the origin: the wall is
degenerate, the bounding box collapses to a point. -/
def demoZero : MeshFEM_DG :=
  { demoWall with meshPoints := [pt2 0 0, pt2 0 0, pt2 0 0, pt2 0 0] }

theorem demoZero_coor (i j : Nat) :
    (demoZero.meshPoints.getD i default).coor j = 0 := by
  rcases i with _ | _ | _ | _ | n <;> (simp [demoZero, demoWall, pt2, List.getD]; try rfl)

theorem demoZero_volIntCoor (l i j : Nat) : volIntCoor demoZero l i j = 0 := by
  have h1 := interp_foldl (demoZero.volElem.getD l default).nDOFsGrid
    (fun k => (volStd demoZero l).basisFunctionsIntegration.getD
      (i * (demoZero.volElem.getD l default).nDOFsGrid + k) 0 *
      (demoZero.meshPoints.getD ((demoZero.volElem.getD l default).nodeIDsGrid.getD k 0)
        default).coor j) 0
  have h2 : (∑ k ∈ Finset.range (demoZero.volElem.getD l default).nDOFsGrid,
      (volStd demoZero l).basisFunctionsIntegration.getD
        (i * (demoZero.volElem.getD l default).nDOFsGrid + k) 0 *
      (demoZero.meshPoints.getD ((demoZero.volElem.getD l default).nodeIDsGrid.getD k 0)
        default).coor j) = 0 :=
    Finset.sum_eq_zero fun k _ => by rw [demoZero_coor, mul_zero]
  exact h1.trans (by rw [h2, add_zero])

theorem demoZero_mfIntCoor (l i j : Nat) : mfIntCoor demoZero l i j = 0 := by
  have h1 := interp_foldl (mfStd demoZero l).nDOFsFaceSide0
    (fun k => (mfStd demoZero l).basisFaceIntegrationSide0.getD
      (i * (mfStd demoZero l).nDOFsFaceSide0 + k) 0 *
      (demoZero.meshPoints.getD
        ((demoZero.matchingFaces.getD l default).DOFsGridFaceSide0.getD k 0) default).coor j) 0
  have h2 : (∑ k ∈ Finset.range (mfStd demoZero l).nDOFsFaceSide0,
      (mfStd demoZero l).basisFaceIntegrationSide0.getD
        (i * (mfStd demoZero l).nDOFsFaceSide0 + k) 0 *
      (demoZero.meshPoints.getD
        ((demoZero.matchingFaces.getD l default).DOFsGridFaceSide0.getD k 0)
        default).coor j) = 0 :=
    Finset.sum_eq_zero fun k _ => by rw [demoZero_coor, mul_zero]
  exact h1.trans (by rw [h2, add_zero])

theorem demoZero_bfIntCoor (iMarker l i j : Nat) : bfIntCoor demoZero iMarker l i j = 0 := by
  have h1 := interp_foldl (surfElemAt demoZero iMarker l).nDOFsGrid
    (fun k => (bfStd demoZero iMarker l).basisFaceIntegration.getD
      (i * (surfElemAt demoZero iMarker l).nDOFsGrid + k) 0 *
      (demoZero.meshPoints.getD ((surfElemAt demoZero iMarker l).DOFsGridFace.getD k 0)
        default).coor j) 0
  have h2 : (∑ k ∈ Finset.range (surfElemAt demoZero iMarker l).nDOFsGrid,
      (bfStd demoZero iMarker l).basisFaceIntegration.getD
        (i * (surfElemAt demoZero iMarker l).nDOFsGrid + k) 0 *
      (demoZero.meshPoints.getD ((surfElemAt demoZero iMarker l).DOFsGridFace.getD k 0)
        default).coor j) = 0 :=
    Finset.sum_eq_zero fun k _ => by rw [demoZero_coor, mul_zero]
  exact h1.trans (by rw [h2, add_zero])

theorem demoZero_surfaceVertexCoor (v j : Nat) : surfaceVertexCoor demoZero v j = 0 := by
  have hsc : surfaceCoor demoZero = [0, 0, 0, 0] := rfl
  rw [surfaceVertexCoor, hsc]
  generalize v * demoZero.nDim + j = idx
  rcases idx with _ | _ | _ | _ | n <;> simp [List.getD]

/-- Witness for C8 on the origin mesh: the wall index is nonempty, all
hypotheses hold for the degenerate box `[0, 0]`, and every written distance
obeys the bounds. -/
theorem claim_C8_witness :
    WallADT_IsEmpty demoZero = false ∧
    ((∀ d ∈ newVecWallDistanceElements demoZero,
      0 ≤ d ∧ d ≤ dist (toPoint demoZero.nDim fun _ => 0) (toPoint demoZero.nDim fun _ => 0)) ∧
    (∀ d ∈ newVecWallDistanceInternalMatchingFaces demoZero,
      0 ≤ d ∧ d ≤ dist (toPoint demoZero.nDim fun _ => 0) (toPoint demoZero.nDim fun _ => 0)) ∧
    (∀ iMarker, iMarker < demoZero.boundaries.length →
      (demoZero.boundaries.getD iMarker default).periodicBoundary = false →
      ∀ d ∈ ((ComputeWall_Distance demoZero).boundaries.getD iMarker
          default).VecWallDistanceBoundaryFaces,
        0 ≤ d ∧ d ≤ dist (toPoint demoZero.nDim fun _ => 0)
          (toPoint demoZero.nDim fun _ => 0))) := by
  refine ⟨by decide, ?_⟩
  have hvert : ∀ conn ∈ subElemConnList demoZero, ∀ v ∈ conn, ∀ j, j < demoZero.nDim →
      (0 : ℝ) ≤ surfaceVertexCoor demoZero v j ∧ surfaceVertexCoor demoZero v j ≤ 0 := by
    intro conn _ v _ j _
    rw [demoZero_surfaceVertexCoor]
    exact ⟨le_refl 0, le_refl 0⟩
  have hvol : ∀ p ∈ volQueryPoints demoZero, ∀ j, j < demoZero.nDim →
      (0 : ℝ) ≤ p j ∧ p j ≤ 0 := by
    intro p hp j _
    rcases mem_flatMap_range.mp hp with ⟨l, _, hpl⟩
    rw [if_neg (by decide : ¬WallADT_IsEmpty demoZero = true)] at hpl
    rcases List.mem_map.mp hpl with ⟨i, _, rfl⟩
    rw [demoZero_volIntCoor]
    exact ⟨le_refl 0, le_refl 0⟩
  have hmf : ∀ p ∈ mfQueryPoints demoZero, ∀ j, j < demoZero.nDim →
      (0 : ℝ) ≤ p j ∧ p j ≤ 0 := by
    intro p hp j _
    rcases mem_flatMap_range.mp hp with ⟨l, _, hpl⟩
    rw [if_neg (by decide : ¬WallADT_IsEmpty demoZero = true)] at hpl
    rcases List.mem_map.mp hpl with ⟨i, _, rfl⟩
    rw [demoZero_mfIntCoor]
    exact ⟨le_refl 0, le_refl 0⟩
  have hbf : ∀ iMarker, ∀ p ∈ bfQueryPoints demoZero iMarker, ∀ j, j < demoZero.nDim →
      (0 : ℝ) ≤ p j ∧ p j ≤ 0 := by
    intro iM p hp j _
    rw [bfQueryPoints] at hp
    by_cases hper : (demoZero.boundaries.getD iM default).periodicBoundary
    · rw [if_pos hper] at hp
      simp at hp
    · rw [if_neg hper] at hp
      rcases mem_flatMap_range.mp hp with ⟨l, _, hpl⟩
      by_cases hz : WallADT_IsEmpty demoZero || viscousWall demoZero iM
      · rw [if_pos hz] at hpl
        simp at hpl
      · rw [if_neg hz] at hpl
        rcases List.mem_map.mp hpl with ⟨i, _, rfl⟩
        rw [demoZero_bfIntCoor]
        exact ⟨le_refl 0, le_refl 0⟩
  exact claim_C8 demoZero (fun _ => 0) (fun _ => 0) hvert hvol hmf hbf

end SU2
